import Mathlib

/-!
Verification of the traffic-timelapse acquisition scripts.

The definitions below are a shallow embedding of the two Python source files
`src/download.py` and `src/timelapse.py`:

* payload validation in `download_image` (content-type check, HTML byte
  signatures, JPEG magic bytes);
* the per-camera download loop of `CameraDownloader` (success counter,
  `running` flag, uninterruptible `time.sleep`);
* the supervising loop of `download.py`'s `main` (liveness check over
  threads, daemon-thread shutdown);
* filename construction `{slug}_{YYYYMMDD_HHMMSS}.jpeg` and the re-parsing
  done by `timelapse.py`'s `find_camera_images` (Python `str.split('_')`,
  `str.replace('.jpeg','')` and `datetime.strptime` with format
  `%Y%m%d_%H%M%S`, including CPython's ordered-alternation regex semantics
  for `%m`, `%d`, `%H`, `%M`, `%S`);
* the date-range filter and `list.sort()` of `find_camera_images`;
* process exit codes of both scripts' `main` functions.

Byte strings are modelled as `List Nat`, Python `str` as Lean `String`,
`datetime` values as records of six natural numbers.
-/

namespace Traffic

/-! ### Fetcher: `download_image` payload classification (src/download.py lines 54-80) -/

/-- The spec's `FetchError` taxonomy for `download_image`'s failure branches. -/
inductive FetchError where
  | HttpStatus
  | NotAnImage
  | InvalidImageSignature
  | NetworkFailure
deriving DecidableEq

/-- ASCII bytes of a string literal (Python `b'...'`). -/
def bytesOfAscii (s : String) : List Nat := s.data.map Char.toNat

/-- JPEG start-of-image marker `b'\xff\xd8\xff'` (download.py line 70). -/
def jpegMagic : List Nat := [0xff, 0xd8, 0xff]

/-- `b'<html'` (download.py line 65). -/
def htmlSig : List Nat := bytesOfAscii "<html"

/-- `b'<!DOCTYPE'` (download.py line 65). -/
def doctypeSig : List Nat := bytesOfAscii "<!DOCTYPE"

/-- Python's substring test `pat in s` on strings, over character lists. -/
def containsSub (pat : List Char) : List Char → Bool
  | [] => pat.isEmpty
  | c :: rest => pat.isPrefixOf (c :: rest) || containsSub pat rest

/-- `'text/html' in content_type.lower()` (download.py lines 58-59);
`str.lower()` maps each character to lower case. -/
def htmlContentType (contentType : String) : Bool :=
  containsSub "text/html".data (contentType.data.map Char.toLower)

/-- The validation chain of `download_image` after a 2xx response
(download.py lines 58-73): content-type check, HTML byte-signature checks,
JPEG magic check; on success the raw bytes are returned. -/
def classify (contentType : String) (body : List Nat) : Except FetchError (List Nat) :=
  if htmlContentType contentType then .error .NotAnImage
  else if htmlSig.isPrefixOf body then .error .NotAnImage
  else if doctypeSig.isPrefixOf body then .error .NotAnImage
  else if !(jpegMagic.isPrefixOf body) then .error .InvalidImageSignature
  else .ok body

/-- One network fetch: either a transport-level exception
(`requests.exceptions.RequestException`) or a response with status,
content-type header and body bytes. -/
inductive HttpOutcome where
  | failure
  | response (status : Nat) (contentType : String) (body : List Nat)

/-- `download_image` (download.py lines 34-87) as a function of the network
outcome and whether the file write succeeds.  `raise_for_status` raises for
4xx/5xx; every raised exception is caught and turns into `False`; a
validated payload is written and the function returns `True` only when the
write does not raise. -/
def download_image (outcome : HttpOutcome) (writeOk : Bool) : Bool :=
  match outcome with
  | .failure => false
  | .response status contentType body =>
    if 400 ≤ status then false
    else
      match classify contentType body with
      | .error _ => false
      | .ok _ => writeOk

/-! ### Timestamps: `datetime` values, `strftime`, `strptime` -/

/-- A Python `datetime` restricted to the fields used by the scripts. -/
structure PyDateTime where
  year : Nat
  month : Nat
  day : Nat
  hour : Nat
  minute : Nat
  second : Nat
deriving DecidableEq

/-- Day count per month, with Gregorian leap years - the validation done by
the `datetime` constructor. -/
def daysInMonth (y m : Nat) : Nat :=
  if m = 2 then (if y % 4 = 0 ∧ (y % 100 ≠ 0 ∨ y % 400 = 0) then 29 else 28)
  else if m = 4 ∨ m = 6 ∨ m = 9 ∨ m = 11 then 30
  else 31

/-- The `datetime(...)` constructor's validity check (MINYEAR/MAXYEAR,
month, day-of-month, time-of-day ranges). -/
def PyDateTime.Valid (t : PyDateTime) : Prop :=
  1 ≤ t.year ∧ t.year ≤ 9999 ∧ 1 ≤ t.month ∧ t.month ≤ 12 ∧
  1 ≤ t.day ∧ t.day ≤ daysInMonth t.year t.month ∧
  t.hour ≤ 23 ∧ t.minute ≤ 59 ∧ t.second ≤ 59

instance (t : PyDateTime) : Decidable t.Valid := by
  unfold PyDateTime.Valid; infer_instance

/-- Python `datetime` comparison `a < b`: lexicographic on
(year, month, day, hour, minute, second). -/
def dtLtB (a b : PyDateTime) : Bool :=
  if a.year ≠ b.year then decide (a.year < b.year)
  else if a.month ≠ b.month then decide (a.month < b.month)
  else if a.day ≠ b.day then decide (a.day < b.day)
  else if a.hour ≠ b.hour then decide (a.hour < b.hour)
  else if a.minute ≠ b.minute then decide (a.minute < b.minute)
  else decide (a.second < b.second)

/-- The ASCII digit character for `n % 10`. -/
def digitChar (n : Nat) : Char := Char.ofNat (48 + n % 10)

/-- Numeric value of an ASCII digit character. -/
def digitVal (c : Char) : Nat := c.toNat - 48

/-- Zero-padded two-digit decimal rendering (strftime `%m`, `%d`, `%H`,
`%M`, `%S`). -/
def pad2 (n : Nat) : List Char := [digitChar (n / 10), digitChar n]

/-- Zero-padded four-digit decimal rendering (strftime `%Y` for years up to
9999). -/
def pad4 (n : Nat) : List Char :=
  [digitChar (n / 1000), digitChar (n / 100), digitChar (n / 10), digitChar n]

/-- `datetime.strftime("%Y%m%d_%H%M%S")` as a character list. -/
def fmtChars (t : PyDateTime) : List Char :=
  pad4 t.year ++ pad2 t.month ++ pad2 t.day ++
    '_' :: (pad2 t.hour ++ pad2 t.minute ++ pad2 t.second)

/-- `timestamp = datetime.now().strftime("%Y%m%d_%H%M%S")` (download.py
line 38). -/
def formatTimestamp (t : PyDateTime) : String := ⟨fmtChars t⟩

/-- `filename = f"{camera_slug}_{timestamp}.jpeg"` (download.py line 40). -/
def mkFilename (slug : String) (t : PyDateTime) : String :=
  slug ++ "_" ++ formatTimestamp t ++ ".jpeg"

/-- `'0' ≤ c ≤ '9'`, the regex class `\d` used by CPython's `_strptime`. -/
def isDigitB (c : Char) : Bool := decide ('0' ≤ c ∧ c ≤ '9')

/-- Regex fragment for `%Y`: exactly four digits (`\d\d\d\d`). -/
def yearCands : List Char → List (Nat × List Char)
  | a :: b :: c :: d :: rest =>
    if isDigitB a ∧ isDigitB b ∧ isDigitB c ∧ isDigitB d then
      [(1000 * digitVal a + 100 * digitVal b + 10 * digitVal c + digitVal d, rest)]
    else []
  | _ => []

/-- Regex fragment for `%m`: `1[0-2]|0[1-9]|[1-9]`, candidates listed in
CPython's alternation order. -/
def monthCands : List Char → List (Nat × List Char)
  | c1 :: c2 :: rest =>
    (if c1 = '1' ∧ '0' ≤ c2 ∧ c2 ≤ '2' then [(10 + digitVal c2, rest)] else []) ++
    (if c1 = '0' ∧ '1' ≤ c2 ∧ c2 ≤ '9' then [(digitVal c2, rest)] else []) ++
    (if '1' ≤ c1 ∧ c1 ≤ '9' then [(digitVal c1, c2 :: rest)] else [])
  | [c1] => if '1' ≤ c1 ∧ c1 ≤ '9' then [(digitVal c1, [])] else []
  | [] => []

/-- Regex fragment for `%d`: `3[01]|[12]\d|0[1-9]|[1-9]`. -/
def dayCands : List Char → List (Nat × List Char)
  | c1 :: c2 :: rest =>
    (if c1 = '3' ∧ '0' ≤ c2 ∧ c2 ≤ '1' then [(30 + digitVal c2, rest)] else []) ++
    (if '1' ≤ c1 ∧ c1 ≤ '2' ∧ isDigitB c2 then [(10 * digitVal c1 + digitVal c2, rest)] else []) ++
    (if c1 = '0' ∧ '1' ≤ c2 ∧ c2 ≤ '9' then [(digitVal c2, rest)] else []) ++
    (if '1' ≤ c1 ∧ c1 ≤ '9' then [(digitVal c1, c2 :: rest)] else [])
  | [c1] => if '1' ≤ c1 ∧ c1 ≤ '9' then [(digitVal c1, [])] else []
  | [] => []

/-- Regex fragment for `%H`: `2[0-3]|[0-1]\d|\d`. -/
def hourCands : List Char → List (Nat × List Char)
  | c1 :: c2 :: rest =>
    (if c1 = '2' ∧ '0' ≤ c2 ∧ c2 ≤ '3' then [(20 + digitVal c2, rest)] else []) ++
    (if '0' ≤ c1 ∧ c1 ≤ '1' ∧ isDigitB c2 then [(10 * digitVal c1 + digitVal c2, rest)] else []) ++
    (if isDigitB c1 then [(digitVal c1, c2 :: rest)] else [])
  | [c1] => if isDigitB c1 then [(digitVal c1, [])] else []
  | [] => []

/-- Regex fragment for `%M` and `%S`: `[0-5]\d|\d`. -/
def minSecCands : List Char → List (Nat × List Char)
  | c1 :: c2 :: rest =>
    (if '0' ≤ c1 ∧ c1 ≤ '5' ∧ isDigitB c2 then [(10 * digitVal c1 + digitVal c2, rest)] else []) ++
    (if isDigitB c1 then [(digitVal c1, c2 :: rest)] else [])
  | [c1] => if isDigitB c1 then [(digitVal c1, [])] else []
  | [] => []

/-- Depth-first search over prioritized candidates: regex alternation with
backtracking.  Tries each `(value, remaining-input)` candidate in order and
keeps the first one whose continuation succeeds. -/
def firstSome {α : Type} : List (Nat × List Char) → (Nat → List Char → Option α) → Option α
  | [], _ => none
  | (v, s) :: rest, k =>
    match k v s with
    | some r => some r
    | none => firstSome rest k

/-- The literal `_` in the middle of the format string: consume one
underscore or fail. -/
def litUnderscore : List Char → Option (List Char)
  | c :: s => if c = '_' then some s else none
  | [] => none

/-- The full-string regex match CPython compiles for the format
`%Y%m%d_%H%M%S`: the six components in sequence, a literal `_` between
`%d` and `%H`, and no unconverted data allowed at the end. -/
def regexYmdHMS (s : List Char) : Option (Nat × Nat × Nat × Nat × Nat × Nat) :=
  firstSome (yearCands s) fun y s1 =>
  firstSome (monthCands s1) fun mo s2 =>
  firstSome (dayCands s2) fun d s3 =>
  (litUnderscore s3).bind fun s4 =>
  firstSome (hourCands s4) fun h s5 =>
  firstSome (minSecCands s5) fun mi s6 =>
  firstSome (minSecCands s6) fun se s7 =>
  if s7.isEmpty then some (y, mo, d, h, mi, se) else none

/-- `datetime.strptime(s, '%Y%m%d_%H%M%S')`: regex match first, then the
`datetime` constructor validates the extracted fields (raising `ValueError`,
modelled as `none`, on e.g. day 31 in a 30-day month). -/
def strptimeYmdHMS (s : List Char) : Option PyDateTime :=
  match regexYmdHMS s with
  | none => none
  | some (y, mo, d, h, mi, se) =>
    let t : PyDateTime := ⟨y, mo, d, h, mi, se⟩
    if t.Valid then some t else none

/-- Python `str.split(sep)` for a one-character separator.  `"".split('_')`
is `['']`; empty parts are kept. -/
def splitChar (sep : Char) : List Char → List (List Char)
  | [] => [[]]
  | c :: rest =>
    if c = sep then [] :: splitChar sep rest
    else
      match splitChar sep rest with
      | [] => [[c]]
      | h :: tl => (c :: h) :: tl

/-- Python `str.replace('.jpeg', '')`: removes every (left-to-right,
non-overlapping) occurrence of `.jpeg`. -/
def stripJpeg (s : List Char) : List Char :=
  match s with
  | [] => []
  | c :: rest =>
    if c = '.' ∧ rest.take 4 = ['j', 'p', 'e', 'g'] then stripJpeg (rest.drop 4)
    else c :: stripJpeg rest
termination_by s.length
decreasing_by
  · simp; omega
  · simp

/-- Timestamp extraction from a stored basename (timelapse.py lines 57-60):
`basename.split('_')[-2] + '_' + basename.split('_')[-1].replace('.jpeg','')`
then `strptime`; an `IndexError` (fewer than two parts) or `ValueError`
yields `none`. -/
def extractTimestamp (basename : String) : Option PyDateTime :=
  let parts := splitChar '_' basename.data
  if 2 ≤ parts.length then
    strptimeYmdHMS
      (parts.getD (parts.length - 2) [] ++
        '_' :: stripJpeg (parts.getD (parts.length - 1) []))
  else none

/-- Whether a basename matches the glob pattern `{camera_key}_*.jpeg`
(timelapse.py line 45): `*` matches any, possibly empty, character
sequence. -/
def globMatch (cameraKey : String) (name : String) : Bool :=
  (cameraKey ++ "_").data.isPrefixOf name.data &&
  ".jpeg".data.isSuffixOf name.data &&
  decide (cameraKey.length + 6 ≤ name.length)

/-- The per-file date filter of `find_camera_images` (timelapse.py lines
54-70): parse the embedded timestamp, skip the file on a parse error, skip
it when before `start_date` or after `end_date`. -/
def keepInRange (startDate endDate : Option PyDateTime) (f : String) : Bool :=
  match extractTimestamp f with
  | none => false
  | some t =>
    (match startDate with | some sd => !dtLtB t sd | none => true) &&
    (match endDate with | some ed => !dtLtB ed t | none => true)

/-- `find_camera_images` (timelapse.py lines 42-76) over the basenames in
the images directory: glob filter, early return on no matches, optional
date filtering, `list.sort()` (ascending lexicographic). -/
def find_camera_images (files : List String) (cameraKey : String)
    (startDate endDate : Option PyDateTime) : List String :=
  let imageFiles := files.filter (fun f => globMatch cameraKey f)
  if imageFiles.isEmpty then []
  else
    (if startDate.isSome || endDate.isSome then
      imageFiles.filter (keepInRange startDate endDate)
    else imageFiles).mergeSort (fun a b => decide (a ≤ b))

/-- `end_date = end_date.replace(hour=23, minute=59, second=59)`
(timelapse.py line 286). -/
def endOfDay (d : PyDateTime) : PyDateTime :=
  { d with hour := 23, minute := 59, second := 59 }

/-- A date parsed from CLI `YYYY-MM-DD` input
(`datetime.strptime(s, '%Y-%m-%d')`): midnight of that day. -/
def cliDate (y m d : Nat) : PyDateTime := ⟨y, m, d, 0, 0, 0⟩

/-! ### Camera worker: `CameraDownloader` (src/download.py lines 115-142) -/

/-- The mutable state of one `CameraDownloader`. -/
structure CameraDownloader where
  camera_slug : String
  interval : Nat
  download_count : Nat
  running : Bool
deriving DecidableEq

/-- `CameraDownloader.__init__`: counter 0, `running = True`. -/
def mkDownloader (slug : String) (interval : Nat) : CameraDownloader :=
  { camera_slug := slug, interval := interval, download_count := 0, running := true }

/-- One iteration body of `CameraDownloader.run` (lines 132-135): increment
the counter exactly when `download_image` returned `True`. -/
def pollCycle (w : CameraDownloader) (success : Bool) : CameraDownloader :=
  if success then { w with download_count := w.download_count + 1 } else w

/-- The `while self.running` loop of `CameraDownloader.run`, driven by a
finite list of per-cycle environments (network outcome, write success). -/
def runCycles (w : CameraDownloader) : List (HttpOutcome × Bool) → CameraDownloader
  | [] => w
  | (outcome, writeOk) :: rest =>
    if w.running then runCycles (pollCycle w (download_image outcome writeOk)) rest
    else w

/-- `CameraDownloader.stop` (lines 140-142). -/
def stopDownloader (w : CameraDownloader) : CameraDownloader :=
  { w with running := false }

/-! ### Timed worker model for shutdown latency (C2) -/

/-- Where the `run` loop currently is: about to test `self.running` at the
top of the loop, inside `time.sleep` with some seconds remaining, or exited. -/
inductive WorkerPhase where
  | loopCheck
  | sleeping (remaining : Nat)
  | stopped
deriving DecidableEq

/-- A `CameraDownloader` thread with its position in time.  `running` is
the flag cleared asynchronously by `stop()`. -/
structure TimedWorker where
  phase : WorkerPhase
  running : Bool
  interval : Nat
deriving DecidableEq

/-- One second of wall-clock time for the worker thread.  The flag is
consulted only at the top of the loop; `time.sleep` is uninterruptible, so
a tick spent sleeping ignores `running` entirely.  The download itself is
treated as instantaneous: after a loop check the worker goes back to sleep
for the full interval. -/
def tick (w : TimedWorker) : TimedWorker :=
  match w.phase with
  | .stopped => w
  | .loopCheck =>
    if w.running then { w with phase := .sleeping w.interval }
    else { w with phase := .stopped }
  | .sleeping 0 =>
    if w.running then { w with phase := .sleeping w.interval }
    else { w with phase := .stopped }
  | .sleeping (r + 1) => { w with phase := .sleeping r }

/-- `n` seconds of wall-clock time. -/
def ticks : Nat → TimedWorker → TimedWorker
  | 0, w => w
  | n + 1, w => ticks n (tick w)

/-- `stop()` as seen by the thread: the flag is cleared in whatever phase
the thread currently is. -/
def requestStop (w : TimedWorker) : TimedWorker := { w with running := false }

/-- `thread.join(timeout=2)` in `main` (download.py line 202): the timeout
main is prepared to wait per thread. -/
def joinTimeout : Nat := 2

/-! ### Scheduler: `main` of download.py (lines 144-216) -/

/-- One pass of the supervision loop (lines 187-191): count live threads;
if any died, print the warning and `break`.  Result: (warning printed,
loop continues). -/
def checkLiveness (threadsAlive : List Bool) : Bool × Bool :=
  let aliveThreads := threadsAlive.filter (fun b => b)
  if aliveThreads.length < threadsAlive.length then (true, false) else (false, true)

/-- Threads are created with `daemon=True` (download.py line 176). -/
def threadDaemon : Bool := true

/-- CPython semantics: a daemon thread is terminated abruptly when the main
thread exits; only non-daemon threads keep the process alive. -/
def survivesMainExit (daemon : Bool) : Bool := !daemon

/-- The scheduler never constructs a replacement worker: the set of
downloaders after the liveness check is the set before (no restart code
exists anywhere in `main`). -/
def restartPolicy (downloaders : List CameraDownloader) : List CameraDownloader :=
  downloaders

/-- `main`'s spawn loop (lines 170-178): one `CameraDownloader` per
selected camera slug. -/
def spawnDownloaders (selected : List String) (interval : Nat) : List CameraDownloader :=
  selected.map (fun slug => mkDownloader slug interval)

/-- The whole system run: every spawned worker executes its own loop on the
outcome stream of its own camera (threads share no state; `env` maps a
camera slug to what the network and filesystem do on each of its cycles). -/
def runSystem (selected : List String) (interval : Nat)
    (env : String → List (HttpOutcome × Bool)) : List CameraDownloader :=
  (spawnDownloaders selected interval).map (fun w => runCycles w (env w.camera_slug))

/-! ### Process exit codes (C8) -/

/-- Outcome of `load_cameras()` (both scripts, lines 9-20). -/
inductive ConfigLoad where
  | ok
  | fileNotFound
  | jsonError
deriving DecidableEq

/-- `load_cameras` calls `exit(1)` on a missing file or malformed JSON;
on success the module keeps loading (`none` = no early exit). -/
def load_cameras_exit : ConfigLoad → Option Nat
  | .ok => none
  | .fileNotFound => some 1
  | .jsonError => some 1

/-- Exit code of `download.py`: `load_cameras` runs at import time; the
`--list-cameras` path, the Ctrl-C shutdown path and the thread-death break
path of `main` all return normally (exit code 0). -/
def download_main_exit (config : ConfigLoad) (_listCameras : Bool) : Nat :=
  match load_cameras_exit config with
  | some code => code
  | none => 0

/-- Exit code of `timelapse.py main` (lines 248-305): `load_cameras` runs
at module load, then `sys.exit(1)` without FFmpeg, then the listing
commands return normally, then date-parse errors exit 1, then a failed
timelapse creation exits 1. -/
def timelapse_main_exit (config : ConfigLoad)
    (ffmpegAvailable listCameras listImages startDateOk endDateOk createOk : Bool) : Nat :=
  match load_cameras_exit config with
  | some code => code
  | none =>
    if !ffmpegAvailable then 1
    else if listCameras then 0
    else if listImages then 0
    else if !startDateOk then 1
    else if !endDateOk then 1
    else if createOk then 0 else 1

/-! ## Helper lemmas -/

/-- A failing cycle leaves the downloader state untouched. -/
theorem runCycles_all_fail (w : CameraDownloader) (inputs : List (HttpOutcome × Bool))
    (h : ∀ p ∈ inputs, download_image p.1 p.2 = false) :
    runCycles w inputs = w := by
  induction inputs with
  | nil => rfl
  | cons p rest ih =>
    obtain ⟨o, wr⟩ := p
    have hd : download_image o wr = false := h (o, wr) (List.mem_cons_self _ _)
    have hrest : ∀ p ∈ rest, download_image p.1 p.2 = false :=
      fun p hp => h p (List.mem_cons_of_mem _ hp)
    by_cases hr : w.running = true
    · simp [runCycles, hr, hd, pollCycle, ih hrest]
    · simp [runCycles, hr]

/-- A succeeding cycle adds exactly one to the counter and keeps the loop
running. -/
theorem runCycles_all_succeed (inputs : List (HttpOutcome × Bool)) :
    ∀ (w : CameraDownloader), w.running = true →
    (∀ p ∈ inputs, download_image p.1 p.2 = true) →
    (runCycles w inputs).download_count = w.download_count + inputs.length ∧
    (runCycles w inputs).running = true := by
  induction inputs with
  | nil => intro w hw _; exact ⟨rfl, hw⟩
  | cons p rest ih =>
    intro w hw h
    obtain ⟨o, wr⟩ := p
    have hd : download_image o wr = true := h (o, wr) (List.mem_cons_self _ _)
    have hrest : ∀ p ∈ rest, download_image p.1 p.2 = true :=
      fun p hp => h p (List.mem_cons_of_mem _ hp)
    have step : pollCycle w (download_image o wr) =
        { w with download_count := w.download_count + 1 } := by
      simp [pollCycle, hd]
    have hstep : runCycles w ((o, wr) :: rest) =
        runCycles { w with download_count := w.download_count + 1 } rest := by
      simp [runCycles, hw, step]
    have h2 := ih { w with download_count := w.download_count + 1 } (by simpa using hw) hrest
    rw [hstep]
    refine ⟨?_, h2.2⟩
    rw [h2.1]
    simp
    omega

/-! ## C1 - Fetcher payload classification -/

/-- C1: a fetched payload is accepted (raw bytes returned) exactly when it
starts with the JPEG start-of-image bytes FF D8 FF and does not start with
the markup signatures `<html` / `<!DOCTYPE`; a declared content-type
containing `text/html` forces rejection as NotAnImage; every non-accepted
payload produces an error. -/
theorem fetcher_accepts_iff :
    ∀ (contentType : String) (body : List Nat),
      (htmlContentType contentType = false →
        (classify contentType body = Except.ok body ↔
          jpegMagic.isPrefixOf body = true ∧
          htmlSig.isPrefixOf body = false ∧ doctypeSig.isPrefixOf body = false)) ∧
      (htmlContentType contentType = true →
        classify contentType body = Except.error FetchError.NotAnImage) ∧
      (classify contentType body = Except.ok body ∨
        ∃ e, classify contentType body = Except.error e) := by
  intro contentType body
  refine ⟨?_, ?_, ?_⟩
  · intro hct
    unfold classify
    rw [hct]
    by_cases h1 : htmlSig.isPrefixOf body = true
    · simp [h1]
    · by_cases h2 : doctypeSig.isPrefixOf body = true
      · simp [h1, h2]
      · by_cases h3 : jpegMagic.isPrefixOf body = true
        · simp [h1, h2, h3]
        · simp [h1, h2, h3]
  · intro hct
    unfold classify
    rw [hct]
    simp
  · unfold classify
    by_cases hct : htmlContentType contentType = true
    · exact Or.inr ⟨FetchError.NotAnImage, by simp [hct]⟩
    · rw [Bool.not_eq_true] at hct
      rw [hct]
      by_cases h1 : htmlSig.isPrefixOf body = true
      · exact Or.inr ⟨FetchError.NotAnImage, by simp [h1]⟩
      · by_cases h2 : doctypeSig.isPrefixOf body = true
        · exact Or.inr ⟨FetchError.NotAnImage, by simp [h1, h2]⟩
        · by_cases h3 : jpegMagic.isPrefixOf body = true
          · exact Or.inl (by simp [h1, h2, h3])
          · exact Or.inr ⟨FetchError.InvalidImageSignature, by simp [h1, h2, h3]⟩

/-- Witness for C1 at a concrete JPEG payload and a concrete HTML
content-type. -/
theorem fetcher_accepts_iff_witness :
    classify "image/jpeg" [0xff, 0xd8, 0xff, 0] = Except.ok [0xff, 0xd8, 0xff, 0] ∧
    classify "text/html; charset=utf-8" [0xff, 0xd8, 0xff, 0] =
      Except.error FetchError.NotAnImage := by
  constructor
  · exact ((fetcher_accepts_iff "image/jpeg" [0xff, 0xd8, 0xff, 0]).1 rfl).mpr
      ⟨rfl, rfl, rfl⟩
  · exact (fetcher_accepts_iff "text/html; charset=utf-8" [0xff, 0xd8, 0xff, 0]).2.1 rfl

/-! ## C2 - shutdown latency of a sleeping worker -/

/-- C2 counterexample: stop() is requested just as a worker with the
spec's example interval of 20s has begun sleeping.  After the 2-second
join timeout `main` uses, the worker is still mid-sleep; it is still not
stopped after 19s (any bound strictly below the interval fails); it exits
only after the full 20-second sleep plus the next loop check.  So the
worker does wait out the full interval, contradicting the claim. -/
theorem worker_waits_out_interval_cex :
    requestStop ⟨WorkerPhase.sleeping 20, true, 20⟩ =
      ⟨WorkerPhase.sleeping 20, false, 20⟩ ∧
    (ticks joinTimeout ⟨WorkerPhase.sleeping 20, false, 20⟩).phase =
      WorkerPhase.sleeping 18 ∧
    (ticks 19 ⟨WorkerPhase.sleeping 20, false, 20⟩).phase ≠ WorkerPhase.stopped ∧
    (ticks 21 ⟨WorkerPhase.sleeping 20, false, 20⟩).phase = WorkerPhase.stopped := by
  decide

/-- C2 amended: the `running` flag is consulted only at the top of the
loop, and `time.sleep` is uninterruptible, so after a stop request a worker
that is mid-sleep with `r` seconds remaining is not Stopped at any time
within those `r` seconds and reaches Stopped only at the next loop check,
one second after the sleep ends - shutdown latency is up to the full
polling interval, not a constant smaller than it. -/
theorem worker_stop_latency :
    ∀ (r : Nat) (w : TimedWorker), w.phase = WorkerPhase.sleeping r →
      w.running = false →
      (∀ k, k ≤ r → (ticks k w).phase ≠ WorkerPhase.stopped) ∧
      (ticks (r + 1) w).phase = WorkerPhase.stopped := by
  intro r
  induction r with
  | zero =>
    intro w hph hrun
    constructor
    · intro k hk
      interval_cases k
      simp [ticks, hph]
    · show (ticks 0 (tick w)).phase = WorkerPhase.stopped
      simp [ticks, tick, hph, hrun]
  | succ r ih =>
    intro w hph hrun
    have hw' : tick w = { w with phase := WorkerPhase.sleeping r } := by
      simp [tick, hph]
    have hrec := ih { w with phase := WorkerPhase.sleeping r } rfl hrun
    constructor
    · intro k hk
      match k with
      | 0 => simp [ticks, hph]
      | j + 1 =>
        show (ticks j (tick w)).phase ≠ WorkerPhase.stopped
        rw [hw']
        exact hrec.1 j (by omega)
    · show (ticks (r + 1) (tick w)).phase = WorkerPhase.stopped
      rw [hw']
      exact hrec.2

/-- Witness for the amended C2 statement at the 20-second interval. -/
theorem worker_stop_latency_witness :
    (ticks 20 ⟨WorkerPhase.sleeping 20, false, 20⟩).phase ≠ WorkerPhase.stopped ∧
    (ticks 21 ⟨WorkerPhase.sleeping 20, false, 20⟩).phase = WorkerPhase.stopped :=
  ⟨(worker_stop_latency 20 ⟨WorkerPhase.sleeping 20, false, 20⟩ rfl rfl).1 20 (by decide),
   (worker_stop_latency 20 ⟨WorkerPhase.sleeping 20, false, 20⟩ rfl rfl).2⟩

/-! ## C3 - success counter invariant -/

/-- C3: a cycle whose fetch and store both succeed increments the counter
by exactly one and leaves `running` unchanged; a failing cycle leaves the
state unchanged; after any sequence of all-failing cycles the counter is 0
and the worker is still running, and after `k` all-succeeding cycles the
counter is `k`. -/
theorem counter_per_cycle_invariant :
    (∀ w : CameraDownloader,
      (pollCycle w true).download_count = w.download_count + 1 ∧
      (pollCycle w true).running = w.running) ∧
    (∀ (w : CameraDownloader) (outcome : HttpOutcome) (writeOk : Bool),
      download_image outcome writeOk = false →
      pollCycle w (download_image outcome writeOk) = w) ∧
    (∀ (slug : String) (iv : Nat) (inputs : List (HttpOutcome × Bool)),
      (∀ p ∈ inputs, download_image p.1 p.2 = false) →
      runCycles (mkDownloader slug iv) inputs = mkDownloader slug iv) ∧
    (∀ (slug : String) (iv : Nat) (inputs : List (HttpOutcome × Bool)),
      (∀ p ∈ inputs, download_image p.1 p.2 = true) →
      (runCycles (mkDownloader slug iv) inputs).download_count = inputs.length ∧
      (runCycles (mkDownloader slug iv) inputs).running = true) := by
  refine ⟨?_, ?_, ?_, ?_⟩
  · intro w
    exact ⟨by simp [pollCycle], by simp [pollCycle]⟩
  · intro w outcome writeOk h
    rw [h]
    simp [pollCycle]
  · intro slug iv inputs h
    exact runCycles_all_fail _ _ h
  · intro slug iv inputs h
    have := runCycles_all_succeed inputs (mkDownloader slug iv) rfl h
    simpa [mkDownloader] using this

/-- Witness for C3: camera "b" receives an HTML error page on each of
three cycles - counter stays 0 and the worker keeps running; a camera
receiving valid JPEG bytes on three cycles reaches counter 3. -/
theorem counter_per_cycle_invariant_witness :
    runCycles (mkDownloader "b" 20)
      (List.replicate 3 (HttpOutcome.response 200 "text/html" (bytesOfAscii "<html><body>error</body></html>"), true)) =
      mkDownloader "b" 20 ∧
    (runCycles (mkDownloader "a" 20)
      (List.replicate 3 (HttpOutcome.response 200 "image/jpeg" [0xff, 0xd8, 0xff, 1, 2], true))).download_count = 3 := by
  constructor
  · exact counter_per_cycle_invariant.2.2.1 "b" 20 _
      (by intro p hp; rw [List.eq_of_mem_replicate hp]; rfl)
  · have := counter_per_cycle_invariant.2.2.2 "a" 20
      (List.replicate 3 (HttpOutcome.response 200 "image/jpeg" [0xff, 0xd8, 0xff, 1, 2], true))
      (by intro p hp; rw [List.eq_of_mem_replicate hp]; rfl)
    simpa using this.1

/-! ## C6 - scheduler reaction to a dead worker -/

/-- C6 counterexample: with two workers of which one has died, the
supervision loop of `main` prints the warning and then `break`s out of the
status loop instead of continuing; and because worker threads are daemon
threads, they do not survive the main thread's exit - the sibling worker
does not keep running. -/
theorem scheduler_break_cex :
    checkLiveness [true, false] = (true, false) ∧
    survivesMainExit threadDaemon = false := by
  decide

/-- C6 amended: when the number of live threads drops below the number
started, the scheduler surfaces a warning and exits its supervision loop
(it does not continue); it never restarts a worker; and since the worker
threads are daemon threads, they are terminated when the main thread
exits, so sibling workers do not keep running. -/
theorem scheduler_warn_and_exit :
    (∀ threadsAlive : List Bool,
      (threadsAlive.filter (fun b => b)).length < threadsAlive.length →
      checkLiveness threadsAlive = (true, false)) ∧
    (∀ threadsAlive : List Bool,
      (threadsAlive.filter (fun b => b)).length = threadsAlive.length →
      checkLiveness threadsAlive = (false, true)) ∧
    (∀ ds : List CameraDownloader, restartPolicy ds = ds) ∧
    survivesMainExit threadDaemon = false := by
  refine ⟨?_, ?_, fun ds => rfl, rfl⟩
  · intro alive h
    simp [checkLiveness, h]
  · intro alive h
    simp [checkLiveness, h]

/-- Witness for the amended C6 statement. -/
theorem scheduler_warn_and_exit_witness :
    checkLiveness [false, true, true] = (true, false) ∧
    checkLiveness [true, true] = (false, true) :=
  ⟨scheduler_warn_and_exit.1 [false, true, true] (by decide),
   scheduler_warn_and_exit.2.1 [true, true] (by decide)⟩

/-! ## C7 - one worker per camera, isolated counters -/

/-- C7: starting the scheduler spawns exactly one downloader per selected
camera slug, in order; each worker's final state is a function of its own
camera's outcome stream only; hence two runs whose environments agree on a
camera's stream give that camera identical counters, regardless of what
happens to any other camera. -/
theorem scheduler_spawn_isolation :
    (∀ (selected : List String) (iv : Nat),
      (spawnDownloaders selected iv).length = selected.length ∧
      (spawnDownloaders selected iv).map (fun w => w.camera_slug) = selected) ∧
    (∀ (selected : List String) (iv : Nat) (env : String → List (HttpOutcome × Bool))
      (k : Nat) (slug : String),
      selected[k]? = some slug →
      (runSystem selected iv env)[k]? =
        some (runCycles (mkDownloader slug iv) (env slug))) ∧
    (∀ (selected : List String) (iv : Nat)
      (env1 env2 : String → List (HttpOutcome × Bool)) (k : Nat) (slug : String),
      selected[k]? = some slug → env1 slug = env2 slug →
      (runSystem selected iv env1)[k]? = (runSystem selected iv env2)[k]?) := by
  have hmem : ∀ (selected : List String) (iv : Nat)
      (env : String → List (HttpOutcome × Bool)) (k : Nat) (slug : String),
      selected[k]? = some slug →
      (runSystem selected iv env)[k]? =
        some (runCycles (mkDownloader slug iv) (env slug)) := by
    intro selected iv env k slug h
    simp [runSystem, spawnDownloaders, List.getElem?_map, h, mkDownloader]
  refine ⟨?_, hmem, ?_⟩
  · intro selected iv
    constructor
    · simp [spawnDownloaders]
    · rw [spawnDownloaders, List.map_map]
      exact List.map_id selected
  · intro selected iv env1 env2 k slug h henv
    rw [hmem selected iv env1 k slug h, hmem selected iv env2 k slug h, henv]

/-- Witness for C7: two cameras; camera "b"'s fetches all fail in the
second run but camera "a" ends with the same state in both runs. -/
theorem scheduler_spawn_isolation_witness :
    (runSystem ["a", "b"] 20 (fun _ => [(HttpOutcome.response 200 "image/jpeg" [0xff, 0xd8, 0xff], true)]))[0]? =
    (runSystem ["a", "b"] 20 (fun s =>
      if s = "b" then [(HttpOutcome.failure, true)]
      else [(HttpOutcome.response 200 "image/jpeg" [0xff, 0xd8, 0xff], true)]))[0]? :=
  scheduler_spawn_isolation.2.2 ["a", "b"] 20 _ _ 0 "a" rfl rfl

/-! ## C8 - process exit codes -/

/-- C8: exit code 0 on a clean shutdown of the downloader and on a normal
listing command; non-zero when FFmpeg (the required external encoder) is
missing and when the camera configuration fails to load (missing file or
malformed JSON). -/
theorem process_exit_codes :
    (∀ lc : Bool, download_main_exit ConfigLoad.ok lc = 0) ∧
    (∀ li sd ed co : Bool, timelapse_main_exit ConfigLoad.ok true true li sd ed co = 0) ∧
    (∀ lc li sd ed co : Bool, timelapse_main_exit ConfigLoad.ok false lc li sd ed co = 1) ∧
    (∀ c : ConfigLoad, c ≠ ConfigLoad.ok →
      (∀ lc : Bool, download_main_exit c lc = 1) ∧
      (∀ f lc li sd ed co : Bool, timelapse_main_exit c f lc li sd ed co = 1)) := by
  refine ⟨fun lc => rfl, fun li sd ed co => rfl, fun lc li sd ed co => rfl, ?_⟩
  intro c hc
  cases c with
  | ok => exact absurd rfl hc
  | fileNotFound => exact ⟨fun lc => rfl, fun f lc li sd ed co => rfl⟩
  | jsonError => exact ⟨fun lc => rfl, fun f lc li sd ed co => rfl⟩

/-- Witness for C8 at concrete flag values. -/
theorem process_exit_codes_witness :
    download_main_exit ConfigLoad.ok true = 0 ∧
    timelapse_main_exit ConfigLoad.ok true true false true true true = 0 ∧
    timelapse_main_exit ConfigLoad.ok false false false true true true = 1 ∧
    download_main_exit ConfigLoad.fileNotFound false = 1 ∧
    timelapse_main_exit ConfigLoad.jsonError true false false true true true = 1 :=
  ⟨process_exit_codes.1 true,
   process_exit_codes.2.1 false true true true,
   process_exit_codes.2.2.1 false false true true true,
   (process_exit_codes.2.2.2 ConfigLoad.fileNotFound (by decide)).1 false,
   (process_exit_codes.2.2.2 ConfigLoad.jsonError (by decide)).2 true false false true true true⟩

/-! ## Digit-character toolkit -/

theorem digitChar_mod (n : Nat) : digitChar (n % 10) = digitChar n := by
  unfold digitChar
  congr 1
  omega

theorem digitVal_digitChar (n : Nat) : digitVal (digitChar n) = n % 10 := by
  have h : ∀ a : Fin 10, digitVal (digitChar a.val) = a.val := by decide
  rw [← digitChar_mod n]
  exact h ⟨n % 10, by omega⟩

theorem digitChar_lt_iff {a b : Nat} : digitChar a < digitChar b ↔ a % 10 < b % 10 := by
  have h : ∀ x y : Fin 10, digitChar x.val < digitChar y.val ↔ x.val < y.val := by decide
  rw [← digitChar_mod a, ← digitChar_mod b]
  exact h ⟨a % 10, by omega⟩ ⟨b % 10, by omega⟩

theorem digitChar_le_iff {a b : Nat} : digitChar a ≤ digitChar b ↔ a % 10 ≤ b % 10 := by
  have h : ∀ x y : Fin 10, digitChar x.val ≤ digitChar y.val ↔ x.val ≤ y.val := by decide
  rw [← digitChar_mod a, ← digitChar_mod b]
  exact h ⟨a % 10, by omega⟩ ⟨b % 10, by omega⟩

theorem digitChar_eq_iff {a b : Nat} : digitChar a = digitChar b ↔ a % 10 = b % 10 := by
  have h : ∀ x y : Fin 10, digitChar x.val = digitChar y.val ↔ x.val = y.val := by decide
  rw [← digitChar_mod a, ← digitChar_mod b]
  exact h ⟨a % 10, by omega⟩ ⟨b % 10, by omega⟩

theorem isDigitB_digitChar (n : Nat) : isDigitB (digitChar n) = true := by
  have h : ∀ a : Fin 10, isDigitB (digitChar a.val) = true := by decide
  rw [← digitChar_mod n]
  exact h ⟨n % 10, by omega⟩

theorem digitChar_ne_underscore (n : Nat) : digitChar n ≠ '_' := by
  have h : ∀ a : Fin 10, digitChar a.val ≠ '_' := by decide
  rw [← digitChar_mod n]
  exact h ⟨n % 10, by omega⟩

theorem digitChar_ne_dot (n : Nat) : digitChar n ≠ '.' := by
  have h : ∀ a : Fin 10, digitChar a.val ≠ '.' := by decide
  rw [← digitChar_mod n]
  exact h ⟨n % 10, by omega⟩

theorem underscore_not_mem_pad2 (n : Nat) : '_' ∉ pad2 n := by
  simp [pad2]
  exact ⟨(digitChar_ne_underscore (n / 10)).symm, (digitChar_ne_underscore n).symm⟩

theorem underscore_not_mem_pad4 (n : Nat) : '_' ∉ pad4 n := by
  simp [pad4]
  exact ⟨(digitChar_ne_underscore (n / 1000)).symm, (digitChar_ne_underscore (n / 100)).symm,
    (digitChar_ne_underscore (n / 10)).symm, (digitChar_ne_underscore n).symm⟩

theorem dot_not_mem_pad2 (n : Nat) : '.' ∉ pad2 n := by
  simp [pad2]
  exact ⟨(digitChar_ne_dot (n / 10)).symm, (digitChar_ne_dot n).symm⟩

/-! ## splitChar and stripJpeg lemmas -/

theorem splitChar_ne_nil (sep : Char) (s : List Char) : splitChar sep s ≠ [] := by
  induction s with
  | nil => simp [splitChar]
  | cons c rest ih =>
    rw [splitChar]
    by_cases hc : c = sep
    · simp [hc]
    · simp only [hc, if_false]
      rcases h : splitChar sep rest with _ | ⟨hd, tl⟩
      · simp
      · simp

theorem splitChar_append_sep (sep : Char) (xs ys : List Char) :
    splitChar sep (xs ++ sep :: ys) = splitChar sep xs ++ splitChar sep ys := by
  induction xs with
  | nil => simp [splitChar]
  | cons c rest ih =>
    show splitChar sep (c :: (rest ++ sep :: ys)) = splitChar sep (c :: rest) ++ splitChar sep ys
    by_cases hc : c = sep
    · rw [splitChar, if_pos hc, ih]
      conv_rhs => rw [splitChar, if_pos hc]
      rfl
    · rcases h : splitChar sep rest with _ | ⟨hd, tl⟩
      · exact absurd h (splitChar_ne_nil sep rest)
      · rw [splitChar, if_neg hc, ih, h]
        conv_rhs => rw [splitChar, if_neg hc, h]
        simp

theorem splitChar_no_sep (sep : Char) (xs : List Char) (h : sep ∉ xs) :
    splitChar sep xs = [xs] := by
  induction xs with
  | nil => rfl
  | cons c rest ih =>
    have hc : ¬(c = sep) := fun he => h (he ▸ List.mem_cons_self c rest)
    have hrest : sep ∉ rest := fun hm => h (List.mem_cons_of_mem c hm)
    rw [splitChar]
    simp only [hc, if_false, ih hrest]

theorem stripJpeg_nil : stripJpeg [] = [] := by
  rw [stripJpeg]

theorem stripJpeg_no_dot (xs ys : List Char) (h : '.' ∉ xs) :
    stripJpeg (xs ++ ys) = xs ++ stripJpeg ys := by
  induction xs with
  | nil => simp
  | cons c rest ih =>
    have hc : ¬(c = '.') := fun he => h (he ▸ List.mem_cons_self c rest)
    have hrest : '.' ∉ rest := fun hm => h (List.mem_cons_of_mem c hm)
    rw [List.cons_append, stripJpeg]
    simp only [hc, false_and, if_false, ih hrest, List.cons_append]

theorem stripJpeg_jpeg : stripJpeg ".jpeg".data = [] := by
  rw [show (".jpeg".data) = ['.', 'j', 'p', 'e', 'g'] from rfl, stripJpeg]
  simp [stripJpeg_nil]

/-! ## Filename shape lemmas -/

theorem fmtChars_length (t : PyDateTime) : (fmtChars t).length = 15 := by
  simp [fmtChars, pad4, pad2]

theorem mkFilename_data (slug : String) (t : PyDateTime) :
    (mkFilename slug t).data = slug.data ++ '_' :: (fmtChars t ++ ".jpeg".data) := by
  show (((slug ++ "_") ++ formatTimestamp t) ++ ".jpeg").data = _
  rw [String.data_append, String.data_append, String.data_append]
  show ((slug.data ++ ['_']) ++ fmtChars t) ++ ".jpeg".data = _
  simp [List.append_assoc]

theorem fmtChars_append (t : PyDateTime) (u : List Char) :
    fmtChars t ++ u = pad4 t.year ++ (pad2 t.month ++ (pad2 t.day ++
      ('_' :: (pad2 t.hour ++ (pad2 t.minute ++ (pad2 t.second ++ u)))))) := by
  simp [fmtChars, List.append_assoc]

theorem daysInMonth_le (y m : Nat) : daysInMonth y m ≤ 31 := by
  unfold daysInMonth
  split_ifs <;> omega

/-! ## strptime component lemmas: on a zero-padded in-range rendering, the
intended candidate is the first one offered by each regex fragment -/

theorem firstSome_cons_some {α : Type} {v : Nat} {s : List Char} {tl : List (Nat × List Char)}
    {k : Nat → List Char → Option α} {r : α} (h : k v s = some r) :
    firstSome ((v, s) :: tl) k = some r := by
  simp [firstSome, h]

theorem yearCands_pad4 {y : Nat} (hy : y ≤ 9999) (rest : List Char) :
    yearCands (pad4 y ++ rest) = [(y, rest)] := by
  have hsplit : pad4 y ++ rest =
      digitChar (y / 1000) :: digitChar (y / 100) :: digitChar (y / 10) :: digitChar y :: rest := rfl
  rw [hsplit, yearCands]
  rw [if_pos ⟨isDigitB_digitChar _, isDigitB_digitChar _, isDigitB_digitChar _, isDigitB_digitChar _⟩]
  rw [digitVal_digitChar, digitVal_digitChar, digitVal_digitChar, digitVal_digitChar]
  have : 1000 * (y / 1000 % 10) + 100 * (y / 100 % 10) + 10 * (y / 10 % 10) + y % 10 = y := by
    omega
  rw [this]

theorem monthCands_pad2 {m : Nat} (h1 : 1 ≤ m) (h2 : m ≤ 12) (rest : List Char) :
    ∃ tl, monthCands (pad2 m ++ rest) = (m, rest) :: tl := by
  have hsplit : pad2 m ++ rest = digitChar (m / 10) :: digitChar m :: rest := rfl
  by_cases hm : m ≤ 9
  · have hlead : digitChar (m / 10) = '0' := by
      rw [show ('0' : Char) = digitChar 0 from by decide]
      exact digitChar_eq_iff.mpr (by omega)
    refine ⟨[], ?_⟩
    rw [hsplit, monthCands, hlead]
    rw [if_neg (fun hc => absurd hc.1 (by decide))]
    rw [if_pos ⟨rfl,
      by rw [show ('1' : Char) = digitChar 1 from by decide]; exact digitChar_le_iff.mpr (by omega),
      by rw [show ('9' : Char) = digitChar 9 from by decide]; exact digitChar_le_iff.mpr (by omega)⟩]
    rw [if_neg (fun hc => absurd hc.1 (by decide))]
    rw [digitVal_digitChar, show m % 10 = m from by omega]
    rfl
  · have hlead : digitChar (m / 10) = '1' := by
      rw [show ('1' : Char) = digitChar 1 from by decide]
      exact digitChar_eq_iff.mpr (by omega)
    refine ⟨[(1, digitChar m :: rest)], ?_⟩
    rw [hsplit, monthCands, hlead]
    rw [if_pos ⟨rfl,
      by rw [show ('0' : Char) = digitChar 0 from by decide]; exact digitChar_le_iff.mpr (by omega),
      by rw [show ('2' : Char) = digitChar 2 from by decide]; exact digitChar_le_iff.mpr (by omega)⟩]
    rw [if_neg (fun hc => absurd hc.1 (by decide))]
    rw [if_pos (by decide : ('1' : Char) ≤ '1' ∧ ('1' : Char) ≤ '9')]
    rw [digitVal_digitChar, show 10 + m % 10 = m from by omega]
    rfl

theorem dayCands_pad2 {d : Nat} (h1 : 1 ≤ d) (h2 : d ≤ 31) (rest : List Char) :
    ∃ tl, dayCands (pad2 d ++ rest) = (d, rest) :: tl := by
  have hsplit : pad2 d ++ rest = digitChar (d / 10) :: digitChar d :: rest := rfl
  by_cases hd9 : d ≤ 9
  · have hlead : digitChar (d / 10) = '0' := by
      rw [show ('0' : Char) = digitChar 0 from by decide]
      exact digitChar_eq_iff.mpr (by omega)
    refine ⟨[], ?_⟩
    rw [hsplit, dayCands, hlead]
    rw [if_neg (fun hc => absurd hc.1 (by decide))]
    rw [if_neg (fun hc => absurd hc.1 (by decide))]
    rw [if_pos ⟨rfl,
      by rw [show ('1' : Char) = digitChar 1 from by decide]; exact digitChar_le_iff.mpr (by omega),
      by rw [show ('9' : Char) = digitChar 9 from by decide]; exact digitChar_le_iff.mpr (by omega)⟩]
    rw [if_neg (fun hc => absurd hc.1 (by decide))]
    rw [digitVal_digitChar, show d % 10 = d from by omega]
    rfl
  · by_cases hd29 : d ≤ 29
    · refine ⟨[(d / 10 % 10, digitChar d :: rest)], ?_⟩
      rw [hsplit, dayCands]
      rw [if_neg (fun hc => by
        rw [show ('3' : Char) = digitChar 3 from by decide] at hc
        exact absurd (digitChar_eq_iff.mp hc.1) (by omega))]
      rw [if_pos ⟨
        by rw [show ('1' : Char) = digitChar 1 from by decide]; exact digitChar_le_iff.mpr (by omega),
        by rw [show ('2' : Char) = digitChar 2 from by decide]; exact digitChar_le_iff.mpr (by omega),
        isDigitB_digitChar _⟩]
      rw [if_neg (fun hc => by
        rw [show ('0' : Char) = digitChar 0 from by decide] at hc
        exact absurd (digitChar_eq_iff.mp hc.1) (by omega))]
      rw [if_pos ⟨
        by rw [show ('1' : Char) = digitChar 1 from by decide]; exact digitChar_le_iff.mpr (by omega),
        by rw [show ('9' : Char) = digitChar 9 from by decide]; exact digitChar_le_iff.mpr (by omega)⟩]
      rw [digitVal_digitChar, digitVal_digitChar,
        show 10 * (d / 10 % 10) + d % 10 = d from by omega]
      rfl
    · have hlead : digitChar (d / 10) = '3' := by
        rw [show ('3' : Char) = digitChar 3 from by decide]
        exact digitChar_eq_iff.mpr (by omega)
      refine ⟨[(3, digitChar d :: rest)], ?_⟩
      rw [hsplit, dayCands, hlead]
      rw [if_pos ⟨rfl,
        by rw [show ('0' : Char) = digitChar 0 from by decide]; exact digitChar_le_iff.mpr (by omega),
        by rw [show ('1' : Char) = digitChar 1 from by decide]; exact digitChar_le_iff.mpr (by omega)⟩]
      rw [if_neg (fun hc => absurd hc.2.1 (by decide))]
      rw [if_neg (fun hc => absurd hc.1 (by decide))]
      rw [if_pos (by decide : ('1' : Char) ≤ '3' ∧ ('3' : Char) ≤ '9')]
      rw [digitVal_digitChar, show 30 + d % 10 = d from by omega]
      rfl

theorem hourCands_pad2 {h : Nat} (hh : h ≤ 23) (rest : List Char) :
    ∃ tl, hourCands (pad2 h ++ rest) = (h, rest) :: tl := by
  have hsplit : pad2 h ++ rest = digitChar (h / 10) :: digitChar h :: rest := rfl
  by_cases h19 : h ≤ 19
  · refine ⟨[(h / 10 % 10, digitChar h :: rest)], ?_⟩
    rw [hsplit, hourCands]
    rw [if_neg (fun hc => by
      rw [show ('2' : Char) = digitChar 2 from by decide] at hc
      exact absurd (digitChar_eq_iff.mp hc.1) (by omega))]
    rw [if_pos ⟨
      by rw [show ('0' : Char) = digitChar 0 from by decide]; exact digitChar_le_iff.mpr (by omega),
      by rw [show ('1' : Char) = digitChar 1 from by decide]; exact digitChar_le_iff.mpr (by omega),
      isDigitB_digitChar _⟩]
    rw [if_pos (isDigitB_digitChar _)]
    rw [digitVal_digitChar, digitVal_digitChar,
      show 10 * (h / 10 % 10) + h % 10 = h from by omega]
    rfl
  · have hlead : digitChar (h / 10) = '2' := by
      rw [show ('2' : Char) = digitChar 2 from by decide]
      exact digitChar_eq_iff.mpr (by omega)
    refine ⟨[(2, digitChar h :: rest)], ?_⟩
    rw [hsplit, hourCands, hlead]
    rw [if_pos ⟨rfl,
      by rw [show ('0' : Char) = digitChar 0 from by decide]; exact digitChar_le_iff.mpr (by omega),
      by rw [show ('3' : Char) = digitChar 3 from by decide]; exact digitChar_le_iff.mpr (by omega)⟩]
    rw [if_neg (fun hc => absurd hc.2.1 (by decide))]
    rw [if_pos (by decide : isDigitB '2' = true)]
    rw [digitVal_digitChar, show 20 + h % 10 = h from by omega]
    rfl

theorem minSecCands_pad2 {v : Nat} (hv : v ≤ 59) (rest : List Char) :
    ∃ tl, minSecCands (pad2 v ++ rest) = (v, rest) :: tl := by
  have hsplit : pad2 v ++ rest = digitChar (v / 10) :: digitChar v :: rest := rfl
  refine ⟨[(v / 10 % 10, digitChar v :: rest)], ?_⟩
  rw [hsplit, minSecCands]
  rw [if_pos ⟨
    by rw [show ('0' : Char) = digitChar 0 from by decide]; exact digitChar_le_iff.mpr (by omega),
    by rw [show ('5' : Char) = digitChar 5 from by decide]; exact digitChar_le_iff.mpr (by omega),
    isDigitB_digitChar _⟩]
  rw [if_pos (isDigitB_digitChar _)]
  rw [digitVal_digitChar, digitVal_digitChar,
    show 10 * (v / 10 % 10) + v % 10 = v from by omega]
  rfl

/-! ## strptime / extractTimestamp round-trip -/

theorem regexYmdHMS_fmt (t : PyDateTime) (hv : t.Valid) :
    regexYmdHMS (fmtChars t) =
      some (t.year, t.month, t.day, t.hour, t.minute, t.second) := by
  obtain ⟨hy1, hy2, hm1, hm2, hd1, hd2, hh, hmi, hs⟩ := hv
  have hd31 : t.day ≤ 31 := le_trans hd2 (daysInMonth_le _ _)
  rw [← List.append_nil (fmtChars t), fmtChars_append t []]
  rw [regexYmdHMS]
  rw [yearCands_pad4 hy2]
  refine firstSome_cons_some ?_
  obtain ⟨tl2, h2⟩ := monthCands_pad2 hm1 hm2
    (pad2 t.day ++ ('_' :: (pad2 t.hour ++ (pad2 t.minute ++ (pad2 t.second ++ [])))))
  rw [h2]
  refine firstSome_cons_some ?_
  obtain ⟨tl3, h3⟩ := dayCands_pad2 hd1 hd31
    ('_' :: (pad2 t.hour ++ (pad2 t.minute ++ (pad2 t.second ++ []))))
  rw [h3]
  refine firstSome_cons_some ?_
  rw [show litUnderscore ('_' :: (pad2 t.hour ++ (pad2 t.minute ++ (pad2 t.second ++ [])))) =
    some (pad2 t.hour ++ (pad2 t.minute ++ (pad2 t.second ++ []))) from by simp [litUnderscore]]
  rw [Option.some_bind]
  obtain ⟨tl4, h4⟩ := hourCands_pad2 hh (pad2 t.minute ++ (pad2 t.second ++ []))
  rw [h4]
  refine firstSome_cons_some ?_
  obtain ⟨tl5, h5⟩ := minSecCands_pad2 hmi (pad2 t.second ++ [])
  rw [h5]
  refine firstSome_cons_some ?_
  obtain ⟨tl6, h6⟩ := minSecCands_pad2 hs ([] : List Char)
  rw [h6]
  refine firstSome_cons_some ?_
  rfl

theorem strptimeYmdHMS_fmt (t : PyDateTime) (hv : t.Valid) :
    strptimeYmdHMS (fmtChars t) = some t := by
  rw [strptimeYmdHMS, regexYmdHMS_fmt t hv]
  have ht : (⟨t.year, t.month, t.day, t.hour, t.minute, t.second⟩ : PyDateTime) = t := by
    cases t
    rfl
  show (if (⟨t.year, t.month, t.day, t.hour, t.minute, t.second⟩ : PyDateTime).Valid then
      some (⟨t.year, t.month, t.day, t.hour, t.minute, t.second⟩ : PyDateTime) else none) = some t
  rw [ht, if_pos hv]

theorem extractTimestamp_mkFilename (slug : String) (t : PyDateTime) (hv : t.Valid) :
    extractTimestamp (mkFilename slug t) = some t := by
  have hdate_ns : '_' ∉ pad4 t.year ++ (pad2 t.month ++ pad2 t.day) := by
    intro h
    rcases List.mem_append.mp h with h | h
    · exact underscore_not_mem_pad4 _ h
    · rcases List.mem_append.mp h with h | h
      · exact underscore_not_mem_pad2 _ h
      · exact underscore_not_mem_pad2 _ h
  have htime_ns : '_' ∉ (pad2 t.hour ++ (pad2 t.minute ++ pad2 t.second)) ++ ".jpeg".data := by
    intro h
    rcases List.mem_append.mp h with h | h
    · rcases List.mem_append.mp h with h | h
      · exact underscore_not_mem_pad2 _ h
      · rcases List.mem_append.mp h with h | h
        · exact underscore_not_mem_pad2 _ h
        · exact underscore_not_mem_pad2 _ h
    · revert h
      decide
  have hshape : (mkFilename slug t).data =
      slug.data ++ '_' :: ((pad4 t.year ++ (pad2 t.month ++ pad2 t.day)) ++
        '_' :: ((pad2 t.hour ++ (pad2 t.minute ++ pad2 t.second)) ++ ".jpeg".data)) := by
    rw [mkFilename_data]
    simp [fmtChars, List.append_assoc]
  rw [extractTimestamp, hshape]
  rw [splitChar_append_sep '_' slug.data,
    splitChar_append_sep '_' (pad4 t.year ++ (pad2 t.month ++ pad2 t.day))]
  rw [splitChar_no_sep '_' _ hdate_ns, splitChar_no_sep '_' _ htime_ns]
  have hlen : (splitChar '_' slug.data ++
      ([pad4 t.year ++ (pad2 t.month ++ pad2 t.day)] ++
        [(pad2 t.hour ++ (pad2 t.minute ++ pad2 t.second)) ++ ".jpeg".data])).length =
      (splitChar '_' slug.data).length + 2 := by
    simp
  rw [hlen]
  rw [if_pos (by omega)]
  have e1 : (splitChar '_' slug.data).length + 2 - 2 = (splitChar '_' slug.data).length := by
    omega
  have e2 : (splitChar '_' slug.data).length + 2 - 1 = (splitChar '_' slug.data).length + 1 := by
    omega
  rw [e1, e2]
  rw [List.getD_append_right (splitChar '_' slug.data) _ [] _ (le_refl _),
    List.getD_append_right (splitChar '_' slug.data) _ [] _ (by omega)]
  have e3 : (splitChar '_' slug.data).length - (splitChar '_' slug.data).length = 0 := by
    omega
  have e4 : (splitChar '_' slug.data).length + 1 - (splitChar '_' slug.data).length = 1 := by
    omega
  rw [e3, e4]
  show strptimeYmdHMS ((pad4 t.year ++ (pad2 t.month ++ pad2 t.day)) ++
    '_' :: stripJpeg ((pad2 t.hour ++ (pad2 t.minute ++ pad2 t.second)) ++ ".jpeg".data)) = some t
  have hdot : '.' ∉ pad2 t.hour ++ (pad2 t.minute ++ pad2 t.second) := by
    intro h
    rcases List.mem_append.mp h with h | h
    · exact dot_not_mem_pad2 _ h
    · rcases List.mem_append.mp h with h | h
      · exact dot_not_mem_pad2 _ h
      · exact dot_not_mem_pad2 _ h
  rw [stripJpeg_no_dot _ _ hdot, stripJpeg_jpeg, List.append_nil]
  rw [show (pad4 t.year ++ (pad2 t.month ++ pad2 t.day)) ++
      '_' :: (pad2 t.hour ++ (pad2 t.minute ++ pad2 t.second)) = fmtChars t from by
    simp [fmtChars, List.append_assoc]]
  exact strptimeYmdHMS_fmt t hv

theorem globMatch_mkFilename (slug : String) (t : PyDateTime) :
    globMatch slug (mkFilename slug t) = true := by
  rw [globMatch]
  refine (Bool.and_eq_true _ _).mpr ⟨(Bool.and_eq_true _ _).mpr ⟨?_, ?_⟩, ?_⟩
  · apply List.isPrefixOf_iff_prefix.mpr
    rw [String.data_append, mkFilename_data]
    rw [show ("_" : String).data = ['_'] from rfl]
    rw [show ('_' :: (fmtChars t ++ ".jpeg".data)) =
      ['_'] ++ (fmtChars t ++ ".jpeg".data) from rfl, ← List.append_assoc]
    exact List.prefix_append _ _
  · apply List.isSuffixOf_iff_suffix.mpr
    rw [mkFilename_data]
    rw [show slug.data ++ '_' :: (fmtChars t ++ ".jpeg".data) =
      (slug.data ++ '_' :: fmtChars t) ++ ".jpeg".data from by simp]
    exact List.suffix_append _ _
  · rw [decide_eq_true_iff]
    have hlen : (mkFilename slug t).length = slug.data.length + 21 := by
      show (mkFilename slug t).data.length = _
      rw [mkFilename_data]
      simp [fmtChars_length]
    rw [hlen]
    show slug.data.length + 6 ≤ slug.data.length + 21
    omega

/-! ## Filename injectivity -/

theorem fmtChars_inj {t1 t2 : PyDateTime} (hv1 : t1.Valid) (hv2 : t2.Valid)
    (h : fmtChars t1 = fmtChars t2) : t1 = t2 := by
  cases t1 with
  | mk y1 mo1 d1 h1 mi1 s1 =>
    cases t2 with
    | mk y2 mo2 d2 h2 mi2 s2 =>
      obtain ⟨hy1, hy2, hm1, hm2, hd1, hd2, hh, hmi, hs⟩ := hv1
      obtain ⟨gy1, gy2, gm1, gm2, gd1, gd2, gh, gmi, gs⟩ := hv2
      have hd31 : d1 ≤ 31 := le_trans hd2 (daysInMonth_le _ _)
      have gd31 : d2 ≤ 31 := le_trans gd2 (daysInMonth_le _ _)
      simp only [fmtChars, pad4, pad2, List.cons_append, List.nil_append,
        List.cons.injEq, and_true, digitChar_eq_iff] at h
      simp only [PyDateTime.mk.injEq]
      simp only at hy1 hy2 hm1 hm2 hd1 hd2 hh hmi hs gy1 gy2 gm1 gm2 gd1 gd2 gh gmi gs hd31 gd31
      omega

theorem mkFilename_inj {s1 s2 : String} {t1 t2 : PyDateTime} (hv1 : t1.Valid)
    (hv2 : t2.Valid) (h : mkFilename s1 t1 = mkFilename s2 t2) : s1 = s2 ∧ t1 = t2 := by
  have hd : (mkFilename s1 t1).data = (mkFilename s2 t2).data := by rw [h]
  rw [mkFilename_data, mkFilename_data] at hd
  have hlen : ('_' :: (fmtChars t1 ++ ".jpeg".data)).length =
      ('_' :: (fmtChars t2 ++ ".jpeg".data)).length := by
    simp [fmtChars_length]
  obtain ⟨hs, ht⟩ := List.append_inj' hd hlen
  refine ⟨String.ext hs, ?_⟩
  simp only [List.cons.injEq, true_and] at ht
  obtain ⟨hf, _⟩ := List.append_inj' ht rfl
  exact fmtChars_inj hv1 hv2 hf

/-! ## C4 - filename round-trip -/

/-- C4: for every slug and valid timestamp, the stored basename is
`{slug}_{YYYYMMDD_HHMMSS}.jpeg`; re-parsing it the way
`find_camera_images` does recovers the timestamp exactly, the name matches
the slug's glob pattern, and the basename determines the (slug, timestamp)
pair uniquely. -/
theorem filename_roundtrip :
    ∀ (slug : String) (t : PyDateTime), t.Valid →
      extractTimestamp (mkFilename slug t) = some t ∧
      globMatch slug (mkFilename slug t) = true ∧
      (∀ (slug2 : String) (t2 : PyDateTime), t2.Valid →
        mkFilename slug t = mkFilename slug2 t2 → slug = slug2 ∧ t = t2) :=
  fun slug t hv =>
    ⟨extractTimestamp_mkFilename slug t hv, globMatch_mkFilename slug t,
     fun _ _ hv2 h => mkFilename_inj hv hv2 h⟩

/-- Witness for C4 at a concrete slug and timestamp. -/
theorem filename_roundtrip_witness :
    (⟨2025, 1, 2, 3, 4, 5⟩ : PyDateTime).Valid ∧
    extractTimestamp (mkFilename "anzacbr" ⟨2025, 1, 2, 3, 4, 5⟩) =
      some ⟨2025, 1, 2, 3, 4, 5⟩ :=
  ⟨by decide, (filename_roundtrip "anzacbr" ⟨2025, 1, 2, 3, 4, 5⟩ (by decide)).1⟩

/-! ## Lexicographic comparison of rendered timestamps -/

theorem pad2_lex_append {m n : Nat} (h : m < n) (hn : n ≤ 99) (u v : List Char) :
    List.Lex (· < ·) (pad2 m ++ u) (pad2 n ++ v) := by
  rcases (by omega : m / 10 % 10 < n / 10 % 10 ∨
      (m / 10 % 10 = n / 10 % 10 ∧ m % 10 < n % 10)) with hc | ⟨he, hc⟩
  · exact List.Lex.rel (digitChar_lt_iff.mpr hc)
  · rw [show pad2 m ++ u = digitChar (m / 10) :: (digitChar m :: u) from rfl,
      show pad2 n ++ v = digitChar (n / 10) :: (digitChar n :: v) from rfl,
      show digitChar (m / 10) = digitChar (n / 10) from digitChar_eq_iff.mpr he]
    exact List.Lex.cons (List.Lex.rel (digitChar_lt_iff.mpr hc))

theorem pad4_lex_append {m n : Nat} (h : m < n) (hn : n ≤ 9999) (u v : List Char) :
    List.Lex (· < ·) (pad4 m ++ u) (pad4 n ++ v) := by
  have hm' : m = 1000 * (m / 1000 % 10) + 100 * (m / 100 % 10) + 10 * (m / 10 % 10) + m % 10 := by
    omega
  have hn' : n = 1000 * (n / 1000 % 10) + 100 * (n / 100 % 10) + 10 * (n / 10 % 10) + n % 10 := by
    omega
  rcases (by omega :
      m / 1000 % 10 < n / 1000 % 10 ∨
      (m / 1000 % 10 = n / 1000 % 10 ∧ (m / 100 % 10 < n / 100 % 10 ∨
      (m / 100 % 10 = n / 100 % 10 ∧ (m / 10 % 10 < n / 10 % 10 ∨
      (m / 10 % 10 = n / 10 % 10 ∧ m % 10 < n % 10)))))) with
    h3 | ⟨e3, h2 | ⟨e2, h1 | ⟨e1, h0⟩⟩⟩
  · exact List.Lex.rel (digitChar_lt_iff.mpr h3)
  · rw [show pad4 m ++ u =
        digitChar (m / 1000) :: (digitChar (m / 100) :: (digitChar (m / 10) ::
          (digitChar m :: u))) from rfl,
      show pad4 n ++ v =
        digitChar (n / 1000) :: (digitChar (n / 100) :: (digitChar (n / 10) ::
          (digitChar n :: v))) from rfl,
      show digitChar (m / 1000) = digitChar (n / 1000) from digitChar_eq_iff.mpr e3]
    exact List.Lex.cons (List.Lex.rel (digitChar_lt_iff.mpr h2))
  · rw [show pad4 m ++ u =
        digitChar (m / 1000) :: (digitChar (m / 100) :: (digitChar (m / 10) ::
          (digitChar m :: u))) from rfl,
      show pad4 n ++ v =
        digitChar (n / 1000) :: (digitChar (n / 100) :: (digitChar (n / 10) ::
          (digitChar n :: v))) from rfl,
      show digitChar (m / 1000) = digitChar (n / 1000) from digitChar_eq_iff.mpr e3,
      show digitChar (m / 100) = digitChar (n / 100) from digitChar_eq_iff.mpr e2]
    exact List.Lex.cons (List.Lex.cons (List.Lex.rel (digitChar_lt_iff.mpr h1)))
  · rw [show pad4 m ++ u =
        digitChar (m / 1000) :: (digitChar (m / 100) :: (digitChar (m / 10) ::
          (digitChar m :: u))) from rfl,
      show pad4 n ++ v =
        digitChar (n / 1000) :: (digitChar (n / 100) :: (digitChar (n / 10) ::
          (digitChar n :: v))) from rfl,
      show digitChar (m / 1000) = digitChar (n / 1000) from digitChar_eq_iff.mpr e3,
      show digitChar (m / 100) = digitChar (n / 100) from digitChar_eq_iff.mpr e2,
      show digitChar (m / 10) = digitChar (n / 10) from digitChar_eq_iff.mpr e1]
    exact List.Lex.cons (List.Lex.cons (List.Lex.cons (List.Lex.rel
      (digitChar_lt_iff.mpr h0))))

theorem dtLtB_iff {a b : PyDateTime} :
    dtLtB a b = true ↔
      (a.year < b.year ∨ (a.year = b.year ∧ (a.month < b.month ∨ (a.month = b.month ∧
       (a.day < b.day ∨ (a.day = b.day ∧ (a.hour < b.hour ∨ (a.hour = b.hour ∧
       (a.minute < b.minute ∨ (a.minute = b.minute ∧
         a.second < b.second)))))))))) := by
  rw [dtLtB]
  split_ifs with hy hmo hd hh hmi <;> simp [decide_eq_true_iff] <;> omega

theorem dtLtB_total {a b : PyDateTime} (h1 : dtLtB a b = false) (h2 : dtLtB b a = false) :
    a = b := by
  rw [← Bool.not_eq_true, dtLtB_iff] at h1 h2
  have hfields : a.year = b.year ∧ a.month = b.month ∧ a.day = b.day ∧
      a.hour = b.hour ∧ a.minute = b.minute ∧ a.second = b.second := by
    omega
  obtain ⟨e1, e2, e3, e4, e5, e6⟩ := hfields
  cases a
  cases b
  simp only [PyDateTime.mk.injEq]
  exact ⟨e1, e2, e3, e4, e5, e6⟩

theorem fmtChars_lex {t1 t2 : PyDateTime} (hv1 : t1.Valid) (hv2 : t2.Valid)
    (h : dtLtB t1 t2 = true) (u v : List Char) :
    List.Lex (· < ·) (fmtChars t1 ++ u) (fmtChars t2 ++ v) := by
  obtain ⟨ha1, ha2, hb1, hb2, hc1, hc2, hd', he', hf'⟩ := hv1
  obtain ⟨ga1, ga2, gb1, gb2, gc1, gc2, gd', ge', gf'⟩ := hv2
  have gd31 : t2.day ≤ 31 := le_trans gc2 (daysInMonth_le _ _)
  rw [fmtChars_append, fmtChars_append]
  rw [dtLtB_iff] at h
  rcases h with hlt | ⟨e1, h⟩
  · exact pad4_lex_append hlt ga2 _ _
  · rw [show pad4 t1.year = pad4 t2.year from by rw [e1]]
    apply List.Lex.append_left
    rcases h with hlt | ⟨e2, h⟩
    · exact pad2_lex_append hlt (by omega) _ _
    · rw [show pad2 t1.month = pad2 t2.month from by rw [e2]]
      apply List.Lex.append_left
      rcases h with hlt | ⟨e3, h⟩
      · exact pad2_lex_append hlt (by omega) _ _
      · rw [show pad2 t1.day = pad2 t2.day from by rw [e3]]
        apply List.Lex.append_left
        apply List.Lex.cons
        rcases h with hlt | ⟨e4, h⟩
        · exact pad2_lex_append hlt (by omega) _ _
        · rw [show pad2 t1.hour = pad2 t2.hour from by rw [e4]]
          apply List.Lex.append_left
          rcases h with hlt | ⟨e5, hlt⟩
          · exact pad2_lex_append hlt (by omega) _ _
          · rw [show pad2 t1.minute = pad2 t2.minute from by rw [e5]]
            apply List.Lex.append_left
            exact pad2_lex_append hlt (by omega) _ _

theorem mkFilename_lt_of_dtLt {slug : String} {t1 t2 : PyDateTime}
    (hv1 : t1.Valid) (hv2 : t2.Valid) (h : dtLtB t1 t2 = true) :
    mkFilename slug t1 < mkFilename slug t2 := by
  rw [String.lt_iff_toList_lt]
  show (mkFilename slug t1).data < (mkFilename slug t2).data
  rw [mkFilename_data, mkFilename_data]
  show List.Lex (· < ·) _ _
  apply List.Lex.append_left
  apply List.Lex.cons
  exact fmtChars_lex hv1 hv2 h _ _

/-! ## C5 - filename order mirrors capture order -/

/-- C5: for a fixed camera slug and valid timestamps, one snapshot's
capture timestamp precedes another's exactly when its generated filename
sorts lexicographically before the other's - so sorting stored filenames
reproduces chronological capture order. -/
theorem filename_order_iff :
    ∀ (slug : String) (t1 t2 : PyDateTime), t1.Valid → t2.Valid →
      (mkFilename slug t1 < mkFilename slug t2 ↔ dtLtB t1 t2 = true) := by
  intro slug t1 t2 hv1 hv2
  constructor
  · intro hlt
    by_cases hab : dtLtB t1 t2 = true
    · exact hab
    · rw [Bool.not_eq_true] at hab
      by_cases hba : dtLtB t2 t1 = true
      · exact absurd (mkFilename_lt_of_dtLt hv2 hv1 hba) (lt_asymm hlt)
      · rw [Bool.not_eq_true] at hba
        rw [dtLtB_total hab hba] at hlt
        exact absurd hlt (lt_irrefl _)
  · exact mkFilename_lt_of_dtLt hv1 hv2

/-- Witness for C5 at two concrete timestamps one second apart. -/
theorem filename_order_iff_witness :
    mkFilename "anzacbr" ⟨2025, 1, 2, 3, 4, 5⟩ <
      mkFilename "anzacbr" ⟨2025, 1, 2, 3, 4, 6⟩ :=
  (filename_order_iff "anzacbr" ⟨2025, 1, 2, 3, 4, 5⟩ ⟨2025, 1, 2, 3, 4, 6⟩
    (by decide) (by decide)).mpr (by decide)

/-! ## C9 - the end date is inclusive of its whole day -/

/-- C9: a YYYY-MM-DD end date is widened to 23:59:59 before filtering, so
every stored snapshot whose embedded capture timestamp falls anywhere on
the end date (and not before the start date, when one is given) is kept by
`find_camera_images`. -/
theorem end_date_inclusive :
    ∀ (files : List String) (slug : String) (t e : PyDateTime)
      (startOpt : Option PyDateTime),
      t.Valid →
      t.year = e.year → t.month = e.month → t.day = e.day →
      (∀ sd, startOpt = some sd → dtLtB t sd = false) →
      mkFilename slug t ∈ files →
      mkFilename slug t ∈ find_camera_images files slug startOpt (some (endOfDay e)) := by
  intro files slug t e startOpt hv hy hm hd hstart hmem
  have hmemf : mkFilename slug t ∈ files.filter (fun f => globMatch slug f) :=
    List.mem_filter.mpr ⟨hmem, globMatch_mkFilename slug t⟩
  have hend : dtLtB (endOfDay e) t = false := by
    rw [Bool.eq_false_iff]
    rw [Ne, dtLtB_iff]
    obtain ⟨_, _, _, _, _, _, hh, hmi, hs⟩ := hv
    simp only [endOfDay]
    omega
  rw [find_camera_images]
  have hnot : ¬((files.filter (fun f => globMatch slug f)).isEmpty = true) := by
    rw [List.isEmpty_iff]
    exact List.ne_nil_of_mem hmemf
  rw [if_neg hnot]
  rw [if_pos (by simp : (startOpt.isSome || (some (endOfDay e)).isSome) = true)]
  rw [List.mem_mergeSort]
  refine List.mem_filter.mpr ⟨hmemf, ?_⟩
  simp only [keepInRange, extractTimestamp_mkFilename slug t hv]
  rcases startOpt with _ | sd
  · simp [hend]
  · simp [hend, hstart sd rfl]

/-- Witness for C9: a snapshot taken at 12:00:00 on the end date is kept. -/
theorem end_date_inclusive_witness :
    mkFilename "anzacbr" ⟨2025, 3, 4, 12, 0, 0⟩ ∈
      find_camera_images [mkFilename "anzacbr" ⟨2025, 3, 4, 12, 0, 0⟩] "anzacbr"
        none (some (endOfDay (cliDate 2025 3 4))) :=
  end_date_inclusive [mkFilename "anzacbr" ⟨2025, 3, 4, 12, 0, 0⟩] "anzacbr"
    ⟨2025, 3, 4, 12, 0, 0⟩ (cliDate 2025 3 4) none (by decide) rfl rfl rfl
    (fun sd h => by cases h) (List.mem_singleton.mpr rfl)

/-! ## C10 - glob matching vs. timestamp-parse filtering -/

/-- C10: with no date range, `find_camera_images` returns exactly the
files matching the `{slug}_*.jpeg` glob, including names that do not parse
as a timestamp; as soon as a start or end date is given, every file whose
name fails to parse is silently dropped. -/
theorem glob_and_parse_filter :
    ∀ (files : List String) (slug : String) (f : String)
      (startOpt endOpt : Option PyDateTime),
      (f ∈ find_camera_images files slug none none ↔
        f ∈ files ∧ globMatch slug f = true) ∧
      ((startOpt.isSome ∨ endOpt.isSome) → extractTimestamp f = none →
        f ∉ find_camera_images files slug startOpt endOpt) := by
  intro files slug f startOpt endOpt
  constructor
  · rw [find_camera_images]
    by_cases he : (files.filter (fun g => globMatch slug g)).isEmpty = true
    · rw [if_pos he]
      rw [List.isEmpty_iff] at he
      constructor
      · intro h
        exact absurd h (List.not_mem_nil f)
      · intro ⟨hf, hg⟩
        have := List.mem_filter.mpr ⟨hf, hg⟩
        rw [he] at this
        exact absurd this (List.not_mem_nil f)
    · rw [if_neg he]
      rw [if_neg (by simp : ¬((none : Option PyDateTime).isSome ||
        (none : Option PyDateTime).isSome) = true)]
      rw [List.mem_mergeSort, List.mem_filter]
  · intro hsome hnone
    rw [find_camera_images]
    by_cases he : (files.filter (fun g => globMatch slug g)).isEmpty = true
    · rw [if_pos he]
      exact List.not_mem_nil f
    · rw [if_neg he]
      rw [if_pos (by
        rcases hsome with hs | hs
        · rw [Option.isSome_iff_exists] at hs
          obtain ⟨x, hx⟩ := hs
          simp [hx]
        · rw [Option.isSome_iff_exists] at hs
          obtain ⟨x, hx⟩ := hs
          simp [hx] : (startOpt.isSome || endOpt.isSome) = true)]
      intro hmem
      rw [List.mem_mergeSort] at hmem
      have hkeep := (List.mem_filter.mp hmem).2
      rw [keepInRange, hnone] at hkeep
      exact absurd hkeep (by simp)

/-- Witness for C10: `a_x.jpeg` does not parse as a timestamp; it is
returned when no range is given and silently dropped once a start date is
supplied. -/
theorem glob_and_parse_filter_witness :
    "a_x.jpeg" ∈ find_camera_images ["a_x.jpeg"] "a" none none ∧
    "a_x.jpeg" ∉ find_camera_images ["a_x.jpeg"] "a" (some (cliDate 2025 1 1)) none := by
  constructor
  · exact (glob_and_parse_filter ["a_x.jpeg"] "a" "a_x.jpeg" none none).1.mpr
      ⟨List.mem_singleton.mpr rfl, by decide⟩
  · exact (glob_and_parse_filter ["a_x.jpeg"] "a" "a_x.jpeg"
      (some (cliDate 2025 1 1)) none).2 (Or.inl rfl)
      (by simp [extractTimestamp, splitChar, stripJpeg, strptimeYmdHMS, regexYmdHMS,
        yearCands, firstSome, litUnderscore])

end Traffic
